import Mathlib

/-!
Verification of the reference-counting protocol of the `pin-rc` crate
(`src/generic_rc.rs`, `src/lib.rs`).

The crate provides pinned, allocation-free reference-counted pointers.
A `PinRcGenericStorage` owns an `Inner` record holding the shared value
together with a live-handle count; `PinRcGeneric` handles are non-owning
pointers into that record.  The code is generic over a `Radium` counter
(plain `Cell<usize>` or `AtomicUsize`); both instantiations execute the
same algorithm, which is what we embed here: the counter is a `usize`
value and the atomic operations are their sequential meaning (the claims
under verification are all about this sequential protocol).

Machine integers: `usize` is modelled as `Nat` with explicit wrapping
(`% (USIZE_MAX + 1)`) exactly where Rust's `fetch_add`/`fetch_sub` wrap.
We fix the 64-bit platform, so `USIZE_MAX = 2^64 - 1`.

Aborts (`fn abort`) are modelled as a `Bool` flag returned by the
operation that would abort; `debug_assert!` is likewise modelled as a
`Bool` recording whether the asserted condition held.

Addresses: a pinned storage sits at a fixed address for its whole life.
We model that address as a `Nat` field `addr` fixed at construction;
a handle stores the address of the `Inner` record it points to
(`PinRcGeneric(NonNull<Inner>)` in the source).  Reads through a handle
(`deref`, `ref_count`) are modelled as functions of the pointed-to
record, which for a pinned storage is the storage's own `inner`.
-/

namespace PinRc

/-- 64-bit `usize::MAX` (= 2^64 - 1). -/
def USIZE_MAX : Nat := 18446744073709551615

/-- From `src/generic_rc.rs`: `const MAX_REFCOUNT: usize = usize::MAX / 2;`. -/
def MAX_REFCOUNT : Nat := USIZE_MAX / 2

/-- Wrapping add of 1 on a `usize`, the effect of `fetch_add(1, _)`. -/
def usizeAdd1 (c : Nat) : Nat := (c + 1) % (USIZE_MAX + 1)

/-- Wrapping subtract of 1 on a `usize`, the effect of `fetch_sub(1, _)`. -/
def usizeSub1 (c : Nat) : Nat := (c + USIZE_MAX) % (USIZE_MAX + 1)

/-- The record `Inner { count: C, value: T }` from `src/generic_rc.rs`,
owned exclusively by the storage.  The counter `C` is modelled by its
contained `usize` value. -/
structure Inner (T : Type) where
  count : Nat
  value : T
deriving Repr, DecidableEq

/-- A handle (`PinRcGeneric(NonNull<Inner<T, C>>)` in the source): it holds
only the address of the `Inner` record it points into. -/
structure PinRcGeneric where
  ptr : Nat
deriving Repr, DecidableEq

/-- The storage `PinRcGenericStorage { inner: UnsafeCell<Inner>, .. }`.
`addr` models the fixed address the storage is pinned at (the value of
`NonNull::from(self.get_ref())` for its inner record). -/
structure PinRcGenericStorage (T : Type) where
  addr : Nat
  inner : Inner T
deriving Repr, DecidableEq

/-- `Inner::create_handle` (src/generic_rc.rs lines 36-42):

    let old_count = self.count.fetch_add(1, Relaxed);
    if old_count > MAX_REFCOUNT { abort() }
    PinRcGeneric(NonNull::from(self.get_ref()))

Returns the updated record (the fetch-add is applied first,
unconditionally), the new handle (a pointer to `self`, whose address is
`self_addr`), and whether `abort` was reached. -/
def Inner.create_handle (i : Inner T) (self_addr : Nat) :
    Inner T × PinRcGeneric × Bool :=
  let old_count := i.count
  ({ i with count := usizeAdd1 i.count },
   PinRcGeneric.mk self_addr,
   decide (MAX_REFCOUNT < old_count))

/-- `PinRcGenericStorage::create_handle` (src/lib.rs lines 79-81):
`self.inner().create_handle()`, where the inner record's address is the
storage's pinned address. -/
def PinRcGenericStorage.create_handle (s : PinRcGenericStorage T) :
    PinRcGenericStorage T × PinRcGeneric × Bool :=
  let r := s.inner.create_handle s.addr
  ({ s with inner := r.1 }, r.2.1, r.2.2)

/-- `Clone for PinRcGeneric` (src/lib.rs lines 102-106):
`self.inner().create_handle()` on the record the handle points to. -/
def PinRcGeneric.clone (h : PinRcGeneric) (record : Inner T) :
    Inner T × PinRcGeneric × Bool :=
  record.create_handle h.ptr

/-- `Drop for PinRcGeneric` (src/generic_rc.rs lines 111-116):

    let c = self.inner_unpin().count.fetch_sub(1, Release);
    debug_assert!(c > 0);

Returns the updated record and whether the debug assertion held
(`c` is the count before the decrement, as returned by `fetch_sub`). -/
def PinRcGeneric.drop (record : Inner T) : Inner T × Bool :=
  let c := record.count
  ({ record with count := usizeSub1 record.count }, decide (0 < c))

/-- `Drop for PinRcGenericStorage` (src/generic_rc.rs lines 59-65):
`if self.inner_unpin().count.load(Acquire) != 0 { abort() }`.
Returns `true` iff the drop aborts the process. -/
def PinRcGenericStorage.drop_aborts (s : PinRcGenericStorage T) : Bool :=
  decide (s.inner.count ≠ 0)

/-- `PinRcGenericStorage::new` (src/generic_rc.rs lines 69-78): constructs
the record with `count: C::new(0)` and the given value.  `addr` models the
address the caller pins the storage at. -/
def PinRcGenericStorage.new (value : T) (addr : Nat) : PinRcGenericStorage T :=
  { addr := addr, inner := { count := 0, value := value } }

/-- `PinRcGenericStorage::get_pin_mut` (src/generic_rc.rs lines 81-87):

    if self.as_ref().inner_unpin().count.load(Acquire) == 0 {
        Some(unsafe { Pin::new_unchecked(&mut (*self.inner.get()).value) })
    } else { None }

Modelled state-passingly: the returned storage is the state after the
call (the function only performs a load), and the `Option` carries the
value mutable access is granted to. -/
def PinRcGenericStorage.get_pin_mut (s : PinRcGenericStorage T) :
    Option T × PinRcGenericStorage T :=
  if s.inner.count = 0 then (some s.inner.value, s) else (none, s)

/-- `PinRcGenericStorage::ref_count` (src/lib.rs lines 66-68):
`self.inner().count()`, a relaxed load of the counter. -/
def PinRcGenericStorage.ref_count (s : PinRcGenericStorage T) : Nat :=
  s.inner.count

/-- `PinRcGeneric::ref_count` (src/lib.rs lines 89-91): a relaxed load of
the counter of the record the handle points to. -/
def PinRcGeneric.ref_count (record : Inner T) : Nat :=
  record.count

/-- `Deref for PinRcGeneric` (src/lib.rs lines 94-100):
`self.inner().value()`, a read of the value of the pointed-to record. -/
def PinRcGeneric.deref (record : Inner T) : T :=
  record.value

/-- `Deref for PinRcGenericStorage` (src/lib.rs lines 53-59):
`self.inner().value()`. -/
def PinRcGenericStorage.deref (s : PinRcGenericStorage T) : T :=
  s.inner.value

/-! ### Trait forwarding (src/lib.rs lines 108-163)

The `impl_cmp_trait` macro generates, for both `PinRcGeneric` and
`PinRcGenericStorage`, comparison methods of the shape
`<T as Trait>::method(&**self, &**other)`, i.e. the value's own method
applied to the two dereferenced values.  The value's implementations are
modelled as explicit function parameters (`eqT`, `cmpT`, ...).  `Hash`
forwards `<T as Hash>::hash(&**self, state)`; a hasher is modelled as a
state type `H` with the value's hash function `hashT : T → H → H`.
`Debug` for both types is `Debug::fmt(self.inner(), f)`, and `Debug for
Inner` renders a debug struct named `PinRcGeneric` with a `ref_count`
field and a `value` field (the latter via the value's own `Debug`,
modelled as `valueFmt : T → String`). -/

def PinRcGeneric.eq (eqT : T → T → Bool) (a b : Inner T) : Bool :=
  eqT (PinRcGeneric.deref a) (PinRcGeneric.deref b)

def PinRcGeneric.pcmp (pcmpT : T → T → Option Ordering) (a b : Inner T) :
    Option Ordering :=
  pcmpT (PinRcGeneric.deref a) (PinRcGeneric.deref b)

def PinRcGeneric.lt (ltT : T → T → Bool) (a b : Inner T) : Bool :=
  ltT (PinRcGeneric.deref a) (PinRcGeneric.deref b)

def PinRcGeneric.le (leT : T → T → Bool) (a b : Inner T) : Bool :=
  leT (PinRcGeneric.deref a) (PinRcGeneric.deref b)

def PinRcGeneric.gt (gtT : T → T → Bool) (a b : Inner T) : Bool :=
  gtT (PinRcGeneric.deref a) (PinRcGeneric.deref b)

def PinRcGeneric.ge (geT : T → T → Bool) (a b : Inner T) : Bool :=
  geT (PinRcGeneric.deref a) (PinRcGeneric.deref b)

def PinRcGeneric.cmp (cmpT : T → T → Ordering) (a b : Inner T) : Ordering :=
  cmpT (PinRcGeneric.deref a) (PinRcGeneric.deref b)

def PinRcGeneric.hash (hashT : T → H → H) (record : Inner T) (state : H) : H :=
  hashT (PinRcGeneric.deref record) state

def PinRcGenericStorage.eq (eqT : T → T → Bool)
    (a b : PinRcGenericStorage T) : Bool :=
  eqT a.deref b.deref

def PinRcGenericStorage.pcmp (pcmpT : T → T → Option Ordering)
    (a b : PinRcGenericStorage T) : Option Ordering :=
  pcmpT a.deref b.deref

def PinRcGenericStorage.lt (ltT : T → T → Bool)
    (a b : PinRcGenericStorage T) : Bool :=
  ltT a.deref b.deref

def PinRcGenericStorage.le (leT : T → T → Bool)
    (a b : PinRcGenericStorage T) : Bool :=
  leT a.deref b.deref

def PinRcGenericStorage.gt (gtT : T → T → Bool)
    (a b : PinRcGenericStorage T) : Bool :=
  gtT a.deref b.deref

def PinRcGenericStorage.ge (geT : T → T → Bool)
    (a b : PinRcGenericStorage T) : Bool :=
  geT a.deref b.deref

def PinRcGenericStorage.cmp (cmpT : T → T → Ordering)
    (a b : PinRcGenericStorage T) : Ordering :=
  cmpT a.deref b.deref

def PinRcGenericStorage.hash (hashT : T → H → H)
    (s : PinRcGenericStorage T) (state : H) : H :=
  hashT s.deref state

/-- `Debug for Inner` (src/lib.rs lines 156-163): a debug struct named
`PinRcGeneric` with fields `ref_count` (the relaxed count) and `value`
(the value's own `Debug` output).  In Rust's standard (non-alternate)
formatting this renders as
`PinRcGeneric \x7b ref_count: N, value: V \x7d`. -/
def Inner.fmt (valueFmt : T → String) (i : Inner T) : String :=
  "PinRcGeneric \x7b ref_count: " ++ toString i.count ++ ", value: "
    ++ valueFmt i.value ++ " \x7d"

/-- `Debug for PinRcGeneric` (src/lib.rs lines 145-149, via
`impl_others!`): `Debug::fmt(self.inner(), f)` on the pointed-to
record. -/
def PinRcGeneric.fmt (valueFmt : T → String) (record : Inner T) : String :=
  record.fmt valueFmt

/-- `Debug for PinRcGenericStorage` (src/lib.rs lines 145-149, via
`impl_others!`): `Debug::fmt(self.inner(), f)`. -/
def PinRcGenericStorage.fmt (valueFmt : T → String)
    (s : PinRcGenericStorage T) : String :=
  s.inner.fmt valueFmt

/-! ### The reference-counting protocol as a transition system

A protocol state is the (single, pinned) storage together with the ghost
number of currently-live handles derived from it.  The steps are exactly
the operations the crate offers on a pinned storage: creating a handle
(`create_handle`, or equivalently `Clone for PinRcGeneric`, which runs
the same `Inner::create_handle`) and dropping a live handle.  A step
exists only if the operation returns (an aborting `create_handle`
terminates the process, hence has no successor state); dropping requires
a live handle to drop. -/

/-- A protocol state: the pinned storage plus the ghost count of
currently-live handles derived from it. -/
structure ProtoState (T : Type) where
  storage : PinRcGenericStorage T
  live : Nat
deriving Repr, DecidableEq

/-- One protocol step: a non-aborting handle creation (covering both
`Storage::create_handle` and `Handle::clone`), or the drop of one of the
currently-live handles. -/
inductive ProtoStep {T : Type} : ProtoState T → ProtoState T → Prop
  | create (s : ProtoState T)
      (hno : (s.storage.create_handle).2.2 = false) :
      ProtoStep s ⟨(s.storage.create_handle).1, s.live + 1⟩
  | dropHandle (s : ProtoState T) (hl : 0 < s.live) :
      ProtoStep s
        ⟨{ s.storage with inner := (PinRcGeneric.drop s.storage.inner).1 },
         s.live - 1⟩

/-- States reachable from a freshly constructed, pinned storage with no
handles, by any sequence of handle creations, clones and drops. -/
def Reachable (v : T) (addr : Nat) (s : ProtoState T) : Prop :=
  Relation.ReflTransGen ProtoStep ⟨PinRcGenericStorage.new v addr, 0⟩ s

/-- The inductive invariant of the protocol: the count always equals the
number of live handles, and never exceeds `MAX_REFCOUNT + 1` (because an
increment from a count above `MAX_REFCOUNT` aborts). -/
def protoInv (s : ProtoState T) : Prop :=
  s.storage.inner.count = s.live ∧ s.storage.inner.count ≤ MAX_REFCOUNT + 1

/-- The state after `n` successive handle creations from a fresh
storage; it is reachable for every `n ≤ MAX_REFCOUNT + 1` (the creation
at count `MAX_REFCOUNT + 1` is the first one that aborts).  It provides
concrete witnesses, including one deep enough to fire the overflow
guard. -/
def iterCreate (v : T) (addr : Nat) : Nat → ProtoState T
  | 0 => ⟨PinRcGenericStorage.new v addr, 0⟩
  | n + 1 =>
      ⟨((iterCreate v addr n).storage.create_handle).1,
       (iterCreate v addr n).live + 1⟩

/-! ### Arithmetic helper lemmas -/

lemma MAX_REFCOUNT_eq : MAX_REFCOUNT = 9223372036854775807 := rfl

lemma usizeAdd1_eq (c : Nat) (h : c < USIZE_MAX) : usizeAdd1 c = c + 1 := by
  have : c + 1 < USIZE_MAX + 1 := by omega
  simpa [usizeAdd1] using Nat.mod_eq_of_lt this

lemma usizeSub1_eq (c : Nat) (h0 : 0 < c) (h1 : c ≤ USIZE_MAX) :
    usizeSub1 c = c - 1 := by
  unfold usizeSub1
  have hrw : c + USIZE_MAX = (c - 1) + 1 * (USIZE_MAX + 1) := by omega
  rw [hrw, Nat.add_mul_mod_self_right]
  exact Nat.mod_eq_of_lt (by omega)

/-! ### The protocol invariant -/

lemma protoInv_new (v : T) (addr : Nat) :
    protoInv (⟨PinRcGenericStorage.new v addr, 0⟩ : ProtoState T) := by
  constructor <;> simp [PinRcGenericStorage.new]

lemma MAX_REFCOUNT_lt_USIZE_MAX : MAX_REFCOUNT < USIZE_MAX := by
  rw [MAX_REFCOUNT_eq]; unfold USIZE_MAX; omega

lemma MAX_REFCOUNT_succ_lt : MAX_REFCOUNT + 1 < USIZE_MAX := by
  rw [MAX_REFCOUNT_eq]; unfold USIZE_MAX; omega

lemma protoInv_step {s s' : ProtoState T} (hs : protoInv s)
    (hstep : ProtoStep s s') : protoInv s' := by
  obtain ⟨hcount, hle⟩ := hs
  cases hstep with
  | create hno =>
      have hold : ¬ MAX_REFCOUNT < s.storage.inner.count := by
        simpa [PinRcGenericStorage.create_handle, Inner.create_handle]
          using hno
      have hlt : s.storage.inner.count < USIZE_MAX :=
        lt_of_le_of_lt (not_lt.mp hold) MAX_REFCOUNT_lt_USIZE_MAX
      constructor
      · simp only [PinRcGenericStorage.create_handle, Inner.create_handle,
          usizeAdd1_eq _ hlt]
        omega
      · simp only [PinRcGenericStorage.create_handle, Inner.create_handle,
          usizeAdd1_eq _ hlt]
        omega
  | dropHandle hl =>
      have hpos : 0 < s.storage.inner.count := hcount ▸ hl
      have hle' : s.storage.inner.count ≤ USIZE_MAX := by
        have := MAX_REFCOUNT_lt_USIZE_MAX
        omega
      constructor
      · simp only [PinRcGeneric.drop, usizeSub1_eq _ hpos hle']
        omega
      · simp only [PinRcGeneric.drop, usizeSub1_eq _ hpos hle']
        omega

lemma protoInv_reachable {v : T} {addr : Nat} {s : ProtoState T}
    (h : Reachable v addr s) : protoInv s := by
  induction h with
  | refl => exact protoInv_new v addr
  | tail _ hstep ih => exact protoInv_step ih hstep

lemma reachable_count_eq_live {v : T} {addr : Nat} {s : ProtoState T}
    (h : Reachable v addr s) : s.storage.inner.count = s.live :=
  (protoInv_reachable h).1

lemma reachable_count_le {v : T} {addr : Nat} {s : ProtoState T}
    (h : Reachable v addr s) : s.storage.inner.count ≤ MAX_REFCOUNT + 1 :=
  (protoInv_reachable h).2

/-! ### Concrete executions -/

lemma iterCreate_count (v : T) (addr : Nat) (n : Nat)
    (h : n ≤ MAX_REFCOUNT + 1) :
    (iterCreate v addr n).storage.inner.count = n ∧
      (iterCreate v addr n).live = n := by
  induction n with
  | zero => simp [iterCreate, PinRcGenericStorage.new]
  | succ n ih =>
      obtain ⟨hc, hl⟩ := ih (by omega)
      have hlt : (iterCreate v addr n).storage.inner.count < USIZE_MAX := by
        have := MAX_REFCOUNT_lt_USIZE_MAX
        omega
      constructor
      · simp only [iterCreate, PinRcGenericStorage.create_handle,
          Inner.create_handle, usizeAdd1_eq _ hlt]
        omega
      · simp only [iterCreate]
        omega

lemma iterCreate_reachable (v : T) (addr : Nat) (n : Nat)
    (h : n ≤ MAX_REFCOUNT + 1) : Reachable v addr (iterCreate v addr n) := by
  induction n with
  | zero => exact Relation.ReflTransGen.refl
  | succ n ih =>
      have hc := (iterCreate_count v addr n (by omega)).1
      have hno : ((iterCreate v addr n).storage.create_handle).2.2 = false := by
        simp only [PinRcGenericStorage.create_handle, Inner.create_handle,
          decide_eq_false_iff_not]
        omega
      exact Relation.ReflTransGen.tail (ih (by omega))
        (ProtoStep.create _ hno)

/-! ### Claim theorems -/

/-- C1: for every sequence of `create_handle`, `Handle::clone` and handle
drop operations on a single storage, each handle creation increments the
shared count by exactly 1, each handle drop decrements it by exactly 1,
and after every step the count equals the number of currently-live
handles derived from that storage. -/
theorem C1_count_eq_live (v : T) (addr : Nat) (s : ProtoState T)
    (h : Reachable v addr s) :
    s.storage.inner.count = s.live ∧
    ((s.storage.create_handle).1).inner.count = s.storage.inner.count + 1 ∧
    (0 < s.live →
      ((PinRcGeneric.drop s.storage.inner).1).count
        = s.storage.inner.count - 1) := by
  obtain ⟨hcount, hle⟩ := protoInv_reachable h
  have hlt : s.storage.inner.count < USIZE_MAX := by
    have := MAX_REFCOUNT_succ_lt
    omega
  refine ⟨hcount, ?_, ?_⟩
  · simp only [PinRcGenericStorage.create_handle, Inner.create_handle,
      usizeAdd1_eq _ hlt]
  · intro hl
    have hpos : 0 < s.storage.inner.count := hcount ▸ hl
    simp only [PinRcGeneric.drop, usizeSub1_eq _ hpos (le_of_lt hlt)]

/-- Witness for C1 at the reachable state with one live handle. -/
theorem C1_count_eq_live_witness :
    Reachable (0 : Nat) 0 (iterCreate 0 0 1) ∧
    ((iterCreate (0 : Nat) 0 1).storage.inner.count
        = (iterCreate (0 : Nat) 0 1).live ∧
      (((iterCreate (0 : Nat) 0 1).storage.create_handle).1).inner.count
        = (iterCreate (0 : Nat) 0 1).storage.inner.count + 1 ∧
      (0 < (iterCreate (0 : Nat) 0 1).live →
        ((PinRcGeneric.drop (iterCreate (0 : Nat) 0 1).storage.inner).1).count
          = (iterCreate (0 : Nat) 0 1).storage.inner.count - 1)) :=
  ⟨iterCreate_reachable 0 0 1 (by decide),
   C1_count_eq_live 0 0 _ (iterCreate_reachable 0 0 1 (by decide))⟩

/-- C2: `get_pin_mut` yields mutable access to the contained value if and
only if the count is exactly 0, yields `none` whenever the count is
nonzero (in particular, in every reachable state that still has a live
handle), and in neither case changes the count or the value (the
returned storage state is unchanged). -/
theorem C2_get_pin_mut (v : T) (addr : Nat) (ps : ProtoState T)
    (h : Reachable v addr ps) :
    (∀ s : PinRcGenericStorage T,
      (((s.get_pin_mut).1).isSome ↔ s.inner.count = 0) ∧
      (s.inner.count ≠ 0 → (s.get_pin_mut).1 = none) ∧
      (s.inner.count = 0 → (s.get_pin_mut).1 = some s.inner.value) ∧
      (s.get_pin_mut).2 = s) ∧
    (0 < ps.live → (ps.storage.get_pin_mut).1 = none) := by
  constructor
  · intro s
    unfold PinRcGenericStorage.get_pin_mut
    by_cases hc : s.inner.count = 0 <;> simp [hc]
  · intro hl
    have hcount := reachable_count_eq_live h
    have hne : ps.storage.inner.count ≠ 0 := by omega
    simp [PinRcGenericStorage.get_pin_mut, hne]

/-- Witness for C2 at the reachable state with one live handle. -/
theorem C2_get_pin_mut_witness :
    Reachable (0 : Nat) 0 (iterCreate 0 0 1) ∧
    (((PinRcGenericStorage.new (0 : Nat) 0).get_pin_mut).1
        = some 0 ∧
      ((iterCreate (0 : Nat) 0 1).storage.get_pin_mut).1 = none) := by
  have hre := iterCreate_reachable (0 : Nat) 0 1 (by decide)
  have hmain := C2_get_pin_mut 0 0 _ hre
  refine ⟨hre, ?_, hmain.2 (by decide)⟩
  exact (hmain.1 (PinRcGenericStorage.new 0 0)).2.2.1 rfl

/-- C3: dropping a storage aborts if and only if its count is nonzero; a
fresh storage (no handle ever created), and more generally any reachable
state with no live handles, is destroyed normally without aborting. -/
theorem C3_storage_drop (v : T) (addr : Nat) (ps : ProtoState T)
    (h : Reachable v addr ps) :
    (∀ s : PinRcGenericStorage T,
      (s.drop_aborts = true ↔ s.inner.count ≠ 0)) ∧
    (PinRcGenericStorage.new v addr).drop_aborts = false ∧
    (ps.live = 0 → ps.storage.drop_aborts = false) := by
  refine ⟨?_, ?_, ?_⟩
  · intro s
    simp [PinRcGenericStorage.drop_aborts]
  · simp [PinRcGenericStorage.drop_aborts, PinRcGenericStorage.new]
  · intro hl
    have hcount := reachable_count_eq_live h
    simp [PinRcGenericStorage.drop_aborts]
    omega

/-- Witness for C3 at the freshly constructed storage. -/
theorem C3_storage_drop_witness :
    Reachable (0 : Nat) 0 (iterCreate 0 0 0) ∧
    (PinRcGenericStorage.new (0 : Nat) 0).drop_aborts = false ∧
    ((iterCreate (0 : Nat) 0 0).live = 0 →
      (iterCreate (0 : Nat) 0 0).storage.drop_aborts = false) :=
  ⟨Relation.ReflTransGen.refl,
   (C3_storage_drop 0 0 _ Relation.ReflTransGen.refl).2.1,
   (C3_storage_drop 0 0 _ Relation.ReflTransGen.refl).2.2⟩

/-- C4: handle creation (`create_handle`, and `Handle::clone`, which runs
the same `Inner::create_handle`) reaches the abort if and only if the
count observed before the increment exceeds `usize::MAX / 2`
(`MAX_REFCOUNT`); the returned handle points at the same record; and on
every reachable state the increment is by exactly 1 with no wraparound
(the guard fires long before the count could wrap). -/
theorem C4_overflow_guard (v : T) (addr : Nat) (s : ProtoState T)
    (h : Reachable v addr s) :
    (∀ (i : Inner T) (a : Nat),
      ((i.create_handle a).2.2 = true ↔ MAX_REFCOUNT < i.count) ∧
      (i.create_handle a).2.1.ptr = a) ∧
    (∀ (record : Inner T) (h0 : PinRcGeneric),
      h0.clone record = record.create_handle h0.ptr) ∧
    ((s.storage.create_handle).1.inner.count
      = s.storage.inner.count + 1) := by
  refine ⟨?_, fun _ _ => rfl, ?_⟩
  · intro i a
    constructor
    · simp [Inner.create_handle]
    · rfl
  · have hle := reachable_count_le h
    have hlt : s.storage.inner.count < USIZE_MAX := by
      have := MAX_REFCOUNT_succ_lt
      omega
    simp only [PinRcGenericStorage.create_handle, Inner.create_handle,
      usizeAdd1_eq _ hlt]

/-- Witness for C4 at the freshly constructed storage. -/
theorem C4_overflow_guard_witness :
    Reachable (0 : Nat) 0 (iterCreate 0 0 0) ∧
    ((((PinRcGenericStorage.new (0 : Nat) 0).inner.create_handle 0).2.2
          = true ↔ MAX_REFCOUNT < (PinRcGenericStorage.new (0 : Nat) 0).inner.count) ∧
      ((iterCreate (0 : Nat) 0 0).storage.create_handle).1.inner.count
        = (iterCreate (0 : Nat) 0 0).storage.inner.count + 1) := by
  have hm := C4_overflow_guard (0 : Nat) 0 _ Relation.ReflTransGen.refl
  exact ⟨Relation.ReflTransGen.refl,
    (hm.1 (PinRcGenericStorage.new (0 : Nat) 0).inner 0).1, hm.2.2⟩

/-- C5: `Storage::new(v)` constructs a storage whose count is 0 (so
`ref_count()` returns 0) and whose contained value is `v`. -/
theorem C5_new (v : T) (addr : Nat) :
    (PinRcGenericStorage.new v addr).inner.count = 0 ∧
    (PinRcGenericStorage.new v addr).inner.value = v ∧
    (PinRcGenericStorage.new v addr).ref_count = 0 := by
  refine ⟨rfl, rfl, rfl⟩

/-- C6: for a freshly created pinned storage holding `v`, after
`h = s.create_handle()` the storage's `ref_count` is 1, the handle's
`ref_count` is 1, dereferencing the handle yields `v`, and the handle
points at the storage's record. -/
theorem C6_first_handle (v : T) (addr : Nat) :
    (((PinRcGenericStorage.new v addr).create_handle).1).ref_count = 1 ∧
    PinRcGeneric.ref_count
      (((PinRcGenericStorage.new v addr).create_handle).1).inner = 1 ∧
    PinRcGeneric.deref
      (((PinRcGenericStorage.new v addr).create_handle).1).inner = v ∧
    ((PinRcGenericStorage.new v addr).create_handle).2.1.ptr
      = (((PinRcGenericStorage.new v addr).create_handle).1).addr := by
  have h1 : usizeAdd1 0 = 1 := by decide
  refine ⟨?_, ?_, rfl, rfl⟩ <;>
    simp [PinRcGenericStorage.new, PinRcGenericStorage.create_handle,
      Inner.create_handle, PinRcGenericStorage.ref_count,
      PinRcGeneric.ref_count, h1]

/-- C8: when handle creation succeeds (no abort), the only observable
state change is that the count increases by exactly 1: the contained
value and the storage's address are unchanged, and the returned handle
points at the same record. -/
theorem C8_create_handle_frame (s : PinRcGenericStorage T)
    (h : (s.create_handle).2.2 = false) :
    (s.create_handle).1.inner.value = s.inner.value ∧
    (s.create_handle).1.addr = s.addr ∧
    (s.create_handle).1.inner.count = s.inner.count + 1 ∧
    (s.create_handle).2.1.ptr = s.addr := by
  have hold : ¬ MAX_REFCOUNT < s.inner.count := by
    simpa [PinRcGenericStorage.create_handle, Inner.create_handle] using h
  have hlt : s.inner.count < USIZE_MAX :=
    lt_of_le_of_lt (not_lt.mp hold) MAX_REFCOUNT_lt_USIZE_MAX
  refine ⟨rfl, rfl, ?_, rfl⟩
  simp only [PinRcGenericStorage.create_handle, Inner.create_handle,
    usizeAdd1_eq _ hlt]

/-- Witness for C8 at a concrete fresh storage. -/
theorem C8_create_handle_frame_witness :
    ((PinRcGenericStorage.new (5 : Nat) 7).create_handle).2.2 = false ∧
    (((PinRcGenericStorage.new (5 : Nat) 7).create_handle).1.inner.value
        = (PinRcGenericStorage.new (5 : Nat) 7).inner.value ∧
      ((PinRcGenericStorage.new (5 : Nat) 7).create_handle).1.addr
        = (PinRcGenericStorage.new (5 : Nat) 7).addr ∧
      ((PinRcGenericStorage.new (5 : Nat) 7).create_handle).1.inner.count
        = (PinRcGenericStorage.new (5 : Nat) 7).inner.count + 1 ∧
      ((PinRcGenericStorage.new (5 : Nat) 7).create_handle).2.1.ptr
        = (PinRcGenericStorage.new (5 : Nat) 7).addr) :=
  ⟨by decide, C8_create_handle_frame _ (by decide)⟩

/-- C9: dropping a handle debug-asserts that the count was strictly
positive before the decrement; in every reachable protocol state with at
least one live handle, the assertion holds. -/
theorem C9_drop_assertion (v : T) (addr : Nat) (s : ProtoState T)
    (h : Reachable v addr s) (hl : 0 < s.live) :
    (PinRcGeneric.drop s.storage.inner).2 = true := by
  have hcount := reachable_count_eq_live h
  simp only [PinRcGeneric.drop, decide_eq_true_iff]
  omega

/-- Witness for C9 at the reachable state with one live handle. -/
theorem C9_drop_assertion_witness :
    Reachable (0 : Nat) 0 (iterCreate 0 0 1) ∧
    0 < (iterCreate (0 : Nat) 0 1).live ∧
    (PinRcGeneric.drop (iterCreate (0 : Nat) 0 1).storage.inner).2 = true :=
  ⟨iterCreate_reachable 0 0 1 (by decide), by decide,
   C9_drop_assertion 0 0 _ (iterCreate_reachable 0 0 1 (by decide))
     (by decide)⟩

/-- C10: when the overflow guard fires during handle creation, the
fetch-add has already been applied and is not rolled back: on the
failure path the count is left exactly one higher than before the call
(for every reachable state, where no wraparound can occur). -/
theorem C10_increment_before_abort (v : T) (addr : Nat) (s : ProtoState T)
    (h : Reachable v addr s)
    (_hab : (s.storage.create_handle).2.2 = true) :
    (s.storage.create_handle).1.inner.count
      = s.storage.inner.count + 1 := by
  have hle := reachable_count_le h
  have hlt : s.storage.inner.count < USIZE_MAX := by
    have := MAX_REFCOUNT_succ_lt
    omega
  simp only [PinRcGenericStorage.create_handle, Inner.create_handle,
    usizeAdd1_eq _ hlt]

/-- Witness for C10 at the reachable state with `MAX_REFCOUNT + 1` live
handles, the first state on which handle creation aborts. -/
theorem C10_increment_before_abort_witness :
    ((iterCreate (0 : Nat) 0 (MAX_REFCOUNT + 1)).storage.create_handle).2.2
        = true ∧
    ((iterCreate (0 : Nat) 0 (MAX_REFCOUNT + 1)).storage.create_handle).1.inner.count
      = (iterCreate (0 : Nat) 0 (MAX_REFCOUNT + 1)).storage.inner.count + 1 := by
  have hre := iterCreate_reachable (0 : Nat) 0 (MAX_REFCOUNT + 1) (le_refl _)
  have hc := (iterCreate_count (0 : Nat) 0 (MAX_REFCOUNT + 1) (le_refl _)).1
  have hab : ((iterCreate (0 : Nat) 0 (MAX_REFCOUNT + 1)).storage.create_handle).2.2
      = true := by
    simp only [PinRcGenericStorage.create_handle, Inner.create_handle, hc,
      decide_eq_true_iff]
    omega
  exact ⟨hab, C10_increment_before_abort 0 0 _ hre hab⟩

/-- C7, counterexample: debug-printing a handle does NOT produce the
same result as debug-printing the contained value directly.  For a
handle to a record holding the value `0 : Nat` (count 0), the handle's
debug output is `PinRcGeneric \x7b ref_count: 0, value: 0 \x7d` while
the value's own debug output is `0`. -/
theorem C7_debug_not_forwarded :
    PinRcGeneric.fmt (fun n : Nat => toString n)
      (Inner.mk 0 0) ≠ toString (0 : Nat) := by
  decide

/-- C7, amended: equality, ordering and hashing on handles and storages
forward to the contained value's own implementations and produce the
same results as applying those directly to the contained values;
debug-printing delegates to the value's own `Debug` for the `value`
field, but renders a debug struct that also contains the `ref_count`
field, so its output is the struct rendering rather than the value's own
debug output. -/
theorem C7_trait_forwarding {T H : Type} (eqT ltT leT gtT geT : T → T → Bool)
    (pcmpT : T → T → Option Ordering) (cmpT : T → T → Ordering)
    (hashT : T → H → H) (valueFmt : T → String)
    (a b : Inner T) (sa sb : PinRcGenericStorage T) (st : H) :
    (PinRcGeneric.eq eqT a b = eqT a.value b.value) ∧
    (PinRcGeneric.pcmp pcmpT a b = pcmpT a.value b.value) ∧
    (PinRcGeneric.lt ltT a b = ltT a.value b.value) ∧
    (PinRcGeneric.le leT a b = leT a.value b.value) ∧
    (PinRcGeneric.gt gtT a b = gtT a.value b.value) ∧
    (PinRcGeneric.ge geT a b = geT a.value b.value) ∧
    (PinRcGeneric.cmp cmpT a b = cmpT a.value b.value) ∧
    (PinRcGeneric.hash hashT a st = hashT a.value st) ∧
    (PinRcGenericStorage.eq eqT sa sb = eqT sa.inner.value sb.inner.value) ∧
    (PinRcGenericStorage.pcmp pcmpT sa sb
      = pcmpT sa.inner.value sb.inner.value) ∧
    (PinRcGenericStorage.lt ltT sa sb = ltT sa.inner.value sb.inner.value) ∧
    (PinRcGenericStorage.le leT sa sb = leT sa.inner.value sb.inner.value) ∧
    (PinRcGenericStorage.gt gtT sa sb = gtT sa.inner.value sb.inner.value) ∧
    (PinRcGenericStorage.ge geT sa sb = geT sa.inner.value sb.inner.value) ∧
    (PinRcGenericStorage.cmp cmpT sa sb
      = cmpT sa.inner.value sb.inner.value) ∧
    (PinRcGenericStorage.hash hashT sa st = hashT sa.inner.value st) ∧
    (PinRcGeneric.fmt valueFmt a
      = "PinRcGeneric \x7b ref_count: " ++ toString a.count ++ ", value: "
          ++ valueFmt a.value ++ " \x7d") ∧
    (PinRcGenericStorage.fmt valueFmt sa
      = "PinRcGeneric \x7b ref_count: " ++ toString sa.inner.count
          ++ ", value: " ++ valueFmt sa.inner.value ++ " \x7d") :=
  ⟨rfl, rfl, rfl, rfl, rfl, rfl, rfl, rfl, rfl, rfl, rfl, rfl, rfl, rfl,
   rfl, rfl, rfl, rfl⟩

end PinRc
